import Mathlib

/-!
Verification of the options-chain analysis logic of `stock_logic.py`
(`andrew00874/stock_stat_web`).

The pandas dataframes of the source are embedded as lists of rows whose
cells are either a rational number, a missing value (NaN), or non-numeric
text; `pd.to_numeric(..., errors='coerce').fillna(0)` maps a numeric cell
to itself and everything else to 0.  Python floats are idealised as `ℚ`.
The two effectful inputs of `parse_options_data` — the `get_current_price`
network lookup and `datetime.datetime.utcnow()` — are passed explicitly as
an `Option ℚ` (where `none` models the `"N/A"` sentinel) and an `Int`
(seconds since the Unix epoch).
-/

namespace StockStat

/-- A dataframe cell: a number, a missing value (NaN), or non-numeric text. -/
inductive Cell where
  | num (q : ℚ)
  | nan
  | str (s : String)
deriving DecidableEq

/-- `pd.to_numeric(x, errors='coerce')` followed by `.fillna(0)`:
numbers survive, NaN and non-numeric text become 0. -/
def Cell.toNum : Cell → ℚ
  | .num q => q
  | .nan => 0
  | .str _ => 0

/-- One option-contract row, with the columns `parse_options_data` touches
(`yf_cols`).  `spread` holds the "Bid-Ask Spread" column once it has been
added; whether that column exists is recorded on the dataframe. -/
structure Row where
  contractSymbol : String
  strike : Cell
  lastPrice : Cell
  bid : Cell
  ask : Cell
  change : Cell
  volume : Cell
  openInterest : Cell
  impliedVolatility : Cell
  spread : Cell
deriving DecidableEq

/-- A dataframe: its rows, whether a `strike` column exists (the one column
whose presence the source checks), and whether the derived
"Bid-Ask Spread" column has been added. -/
structure DataFrame where
  hasStrike : Bool
  hasSpread : Bool
  rows : List Row
deriving DecidableEq

def Row.vol (r : Row) : ℚ := r.volume.toNum

def Row.oi (r : Row) : ℚ := r.openInterest.toNum

def Row.strikeQ (r : Row) : ℚ := r.strike.toNum

def Row.ivQ (r : Row) : ℚ := r.impliedVolatility.toNum

def Row.chg (r : Row) : ℚ := r.change.toNum

/-- A row of NaNs; used as the (unreachable) default of `Option.getD` where
the source indexes a dataframe it has already checked to be non-empty. -/
def dummyRow : Row := ⟨"", .nan, .nan, .nan, .nan, .nan, .nan, .nan, .nan, .nan⟩

/-- `df[col].sum()` over the embedded rows. -/
def colSum (rs : List Row) (f : Row → ℚ) : ℚ := (rs.map f).sum

/-- `df[col].mean()` (only ever evaluated on non-empty frames). -/
def colMean (rs : List Row) (f : Row → ℚ) : ℚ := colSum rs f / (rs.length : ℚ)

/-- `df[col].max()`: `none` on an empty frame. -/
def colMax? (rs : List Row) (f : Row → ℚ) : Option ℚ :=
  match rs.map f with
  | [] => none
  | x :: xs => some (xs.foldl max x)

/-- `df.loc[df[col].idxmax()]`: the first row attaining the maximum of `f`. -/
def argmaxFirst (f : Row → ℚ) : List Row → Option Row
  | [] => none
  | r :: rs =>
    match argmaxFirst f rs with
    | none => some r
    | some b => if f b > f r then some b else some r

/-- `df.loc[df[col].idxmin()]`: the first row attaining the minimum of `f`. -/
def argminFirst (f : Row → ℚ) : List Row → Option Row
  | [] => none
  | r :: rs =>
    match argminFirst f rs with
    | none => some r
    | some b => if f b < f r then some b else some r

/-- `df[col].median()`: middle element of the sorted values, or the mean of
the two middle elements for an even count (pandas' default interpolation).
The empty case never reaches any observable value in `parse_options_data`
(the empty-frame guard returns first). -/
def median (xs : List ℚ) : ℚ :=
  let s := List.insertionSort (· ≤ ·) xs
  let n := s.length
  if n = 0 then 0
  else if n % 2 = 1 then s.getD (n / 2) 0
  else (s.getD (n / 2 - 1) 0 + s.getD (n / 2) 0) / 2

/-- The per-row effect of the preprocessing loop of `parse_options_data`
(source lines 145–154): `contractSymbol` is coerced to text (identity on a
string), every numeric column is coerced with `pd.to_numeric(...).fillna(0)`,
and the "Bid-Ask Spread" cell `abs(ask - bid)` is computed from the coerced
bid and ask. -/
def cleanRow (r : Row) : Row :=
  { contractSymbol := r.contractSymbol
    strike := .num r.strike.toNum
    lastPrice := .num r.lastPrice.toNum
    bid := .num r.bid.toNum
    ask := .num r.ask.toNum
    change := .num r.change.toNum
    volume := .num r.volume.toNum
    openInterest := .num r.openInterest.toNum
    impliedVolatility := .num r.impliedVolatility.toNum
    spread := .num |r.ask.toNum - r.bid.toNum| }

/-- The in-place mutation `parse_options_data` performs on each input frame
before the volume check: all rows cleaned, the "Bid-Ask Spread" column added. -/
def preprocess (df : DataFrame) : DataFrame :=
  { df with rows := df.rows.map cleanRow, hasSpread := true }

/-- `re.search(r"(\d{6})", ·)`: the leftmost run of six consecutive digits,
as a scan over the character list. -/
def findSixDigits : List Char → Option (List Char)
  | [] => none
  | c :: rest =>
    if ((c :: rest).take 6).length = 6 ∧ ∀ x ∈ (c :: rest).take 6, x.isDigit = true then
      some ((c :: rest).take 6)
    else
      findSixDigits rest

/-- Formats a six-digit run `YYMMDD` as `20YY-MM-DD`. -/
def fmtSix (ds : List Char) : String :=
  "20" ++ String.mk (ds.take 2) ++ "-" ++ String.mk ((ds.drop 2).take 2)
    ++ "-" ++ String.mk (ds.drop 4)

/-- `extract_expiry_date` of the source: the first six-digit run of the
contract symbol formatted as `20YY-MM-DD`, else `"N/A"`.  (The `bytes`
branch of the source is identity here: symbols are already strings after
the `astype(str)` coercion.) -/
def extract_expiry_date (contract_name : String) : String :=
  match findSixDigits contract_name.toList with
  | some ds => fmtSix ds
  | none => "N/A"

/-- The expiry label of a frame: `extract_expiry_date` of the first row's
symbol, or `"N/A"` when indexing row 0 raises `IndexError`. -/
def expiryLabel (df : DataFrame) : String :=
  match df.rows.head? with
  | some r => extract_expiry_date r.contractSymbol
  | none => "N/A"

/-- The success path of `get_expiry_dates`: an empty provider response gives
`[]`, otherwise `sorted(options)` (ascending, stable; for a linear order the
sorted list is determined by the multiset, so insertion sort is observably
`sorted`). -/
def get_expiry_dates (options : List String) : List String :=
  if options = [] then [] else List.insertionSort (· ≤ ·) options

/-- (y % 4 == 0 and y % 100 != 0) or y % 400 == 0. -/
def isLeap (y : Int) : Bool :=
  (y % 4 == 0 && y % 100 != 0) || y % 400 == 0

def daysInMonth (y : Int) (m : Nat) : Nat :=
  if m = 1 ∨ m = 3 ∨ m = 5 ∨ m = 7 ∨ m = 8 ∨ m = 10 ∨ m = 12 then 31
  else if m = 2 then (if isLeap y then 29 else 28)
  else 30

/-- Splits a character list on `-` (the field separator of `%Y-%m-%d`). -/
def splitOnDash : List Char → List (List Char)
  | [] => [[]]
  | c :: rest =>
    if c = '-' then [] :: splitOnDash rest
    else
      match splitOnDash rest with
      | [] => [[c]]
      | g :: gs => (c :: g) :: gs

/-- A non-empty all-digit group read as a natural number. -/
def digitsToNat? (cs : List Char) : Option Nat :=
  if cs ≠ [] ∧ ∀ c ∈ cs, c.isDigit = true then
    some (cs.foldl (fun acc c => acc * 10 + (c.toNat - 48)) 0)
  else none

/-- `datetime.datetime.strptime(s, "%Y-%m-%d")`: three digit groups split
on `-`, with full calendar validation (month 1–12, day within the month,
year 1–9999); `none` models the `ValueError` the source catches. -/
def strptimeYmd (s : String) : Option (Int × Nat × Nat) :=
  match splitOnDash s.toList with
  | [ys, ms, ds] =>
    match digitsToNat? ys, digitsToNat? ms, digitsToNat? ds with
    | some y, some m, some d =>
      if 1 ≤ y ∧ y ≤ 9999 ∧ 1 ≤ m ∧ m ≤ 12 ∧ 1 ≤ d ∧ d ≤ daysInMonth (y : Int) m then
        some ((y : Int), m, d)
      else none
    | _, _, _ => none
  | _ => none

/-- Days from 1970-01-01 to the given proleptic-Gregorian date
(the standard civil-from-days inverse). -/
def daysFromCivil (y : Int) (m : Nat) (d : Nat) : Int :=
  let y2 : Int := if m ≤ 2 then y - 1 else y
  let era : Int := Int.fdiv y2 400
  let yoe : Int := y2 - era * 400
  let mp : Int := ((m : Int) + 9) % 12
  let doy : Int := Int.fdiv (153 * mp + 2) 5 + (d : Int) - 1
  let doe : Int := yoe * 365 + Int.fdiv yoe 4 - Int.fdiv yoe 100 + doy
  era * 146097 + doe - 719468

/-- `(expiry_dt - today).days` with `expiry_dt` the parsed label at UTC
midnight and `today = utcnow()` given as epoch seconds; Python's
`timedelta.days` floors toward minus infinity.  An unparseable label
(the caught `ValueError`) defaults to 30. -/
def days_to_expiry (label : String) (nowSec : Int) : Int :=
  match strptimeYmd label with
  | some (y, m, d) => Int.fdiv (86400 * daysFromCivil y m d - nowSec) 86400
  | none => 30

/-- The value of `total_put_volume / total_call_volume if total_call_volume > 0
else float('inf')`: a finite rational or the IEEE `+inf`. -/
inductive PCR where
  | finite (q : ℚ)
  | inf
deriving DecidableEq

def putCallRatio (callTot putTot : ℚ) : PCR :=
  if 0 < callTot then .finite (putTot / callTot) else .inf

/-- `ratio < c` with `float('inf') < c` false. -/
def PCR.ltp : PCR → ℚ → Prop
  | .finite q, c => q < c
  | .inf, _ => False

instance : (x : PCR) → (c : ℚ) → Decidable (x.ltp c)
  | .finite q, c => inferInstanceAs (Decidable (q < c))
  | .inf, _ => inferInstanceAs (Decidable False)

/-- `ratio > c` with `float('inf') > c` true. -/
def PCR.gtp : PCR → ℚ → Prop
  | .finite q, c => c < q
  | .inf, _ => True

instance : (x : PCR) → (c : ℚ) → Decidable (x.gtp c)
  | .finite q, c => inferInstanceAs (Decidable (c < q))
  | .inf, _ => inferInstanceAs (Decidable True)

/-- `min((total_call_volume + total_put_volume) / 100000, 1.0)`. -/
def volume_score (tot : ℚ) : ℚ := min (tot / 100000) 1

/-- `min((call OI sum + put OI sum) / 200000, 1.0)`. -/
def oi_score (tot : ℚ) : ℚ := min (tot / 200000) 1

/-- Rows with `strike` between 95% and 105% of the reference price
(`Series.between` is inclusive on both ends). -/
def atmBand (rs : List Row) (cp : ℚ) : List Row :=
  rs.filter fun r => decide (cp * (19/20) ≤ r.strikeQ ∧ r.strikeQ ≤ cp * (21/20))

/-- `min(atm_concentration * 2, 1.0)` with
`atm_concentration = atm_volume / (total_volume + 1e-6)`. -/
def atm_score (atmVol totVol : ℚ) : ℚ :=
  min (atmVol / (totVol + 1/1000000) * 2) 1

/-- The `time_score` branch of `parse_options_data` (source lines 224–229). -/
def time_score (d : Int) : ℚ :=
  if 5 ≤ d ∧ d ≤ 45 then 1 else if d < 90 then 7/10 else 3/10

/-- Round half to even (Python's `round` on exact values). -/
def roundHalfEven (x : ℚ) : Int :=
  let f := ⌊x⌋
  let frac := x - f
  if frac < 1/2 then f
  else if 1/2 < frac then f + 1
  else if f % 2 = 0 then f else f + 1

/-- `round(x, 2)`. -/
def round2 (x : ℚ) : ℚ := (roundHalfEven (100 * x) : ℚ) / 100

/-- `round(volume_score*0.3 + oi_score*0.3 + atm_score*0.2 + time_score*0.2, 2)`. -/
def reliability_index (vs os ascore ts : ℚ) : ℚ :=
  round2 (vs * (3/10) + os * (3/10) + ascore * (1/5) + ts * (1/5))

/-- The whole reliability computation of `parse_options_data`
(source lines 215–236), as a function of the two (already preprocessed)
row sets, the reference price and the days to expiry. -/
def reliabilityOf (callRows putRows : List Row) (cp : ℚ) (dte : Int) : ℚ :=
  let tcv := colSum callRows Row.vol
  let tpv := colSum putRows Row.vol
  let vs := volume_score (tcv + tpv)
  let os := oi_score (colSum callRows Row.oi + colSum putRows Row.oi)
  let atmVol := colSum (atmBand callRows cp) Row.vol + colSum (atmBand putRows cp) Row.vol
  reliability_index vs os (atm_score atmVol (tcv + tpv)) (time_score dte)

/-- The band filter of `get_box_range_weighted`:
`df[df["strike"].between(cp*(1-limit), cp*(1+limit))]`. -/
def bandRows (rs : List Row) (cp limit : ℚ) : List Row :=
  rs.filter fun r => decide (cp * (1 - limit) ≤ r.strikeQ ∧ r.strikeQ ≤ cp * (1 + limit))

/-- `WeightedScore = openInterest * 0.3 + volume * 0.7`. -/
def weightedScore (r : Row) : ℚ := r.oi * (3/10) + r.vol * (7/10)

/-- `get_box_range_weighted(df, current_price, strike_distance_limit)` of the
source (default limit 0.25; both call sites pass 0.3): `None` on an empty
frame, an empty band, a zero openInterest sum over the band, or a zero
maximal weighted score; otherwise the strike of the first row attaining the
maximal weighted score. -/
def get_box_range_weighted (df : DataFrame) (current_price : ℚ) (limit : ℚ) : Option ℚ :=
  if df.rows = [] then none
  else
    let filtered := bandRows df.rows current_price limit
    if filtered = [] ∨ colSum filtered Row.oi = 0 then none
    else if colMax? filtered weightedScore = some 0 then none
    else (argmaxFirst weightedScore filtered).map Row.strikeQ

/-- Python truthiness of the per-side box result: `None` and `0.0` are falsy. -/
def truthy : Option ℚ → Prop
  | some x => x ≠ 0
  | none => False

instance : (x : Option ℚ) → Decidable (truthy x)
  | some x => inferInstanceAs (Decidable (x ≠ 0))
  | none => inferInstanceAs (Decidable False)

/-- `if put_box_min and call_box_max:` — the box line carries both bounds or
is omitted entirely (source lines 298–299). -/
def boxPair (pb cb : Option ℚ) : Option ℚ × Option ℚ :=
  if truthy pb ∧ truthy cb then (pb, cb) else (none, none)

/-- The structured content of the report `parse_options_data` renders. -/
structure Report where
  ticker : String
  expiry_date : String
  current_price : ℚ
  strategy : String
  most_traded_call_strike : ℚ
  most_traded_call_volume : ℚ
  most_traded_call_oi : ℚ
  most_traded_put_strike : ℚ
  most_traded_put_volume : ℚ
  most_traded_put_oi : ℚ
  put_call_ratio : PCR
  iv_skew : ℚ
  mean_iv : ℚ
  reliability : ℚ
  reliability_msg : String
  boxMin : Option ℚ
  boxMax : Option ℚ
deriving DecidableEq

/-- The four return points of `parse_options_data`: the three error strings
and the assembled report. -/
inductive Result where
  | invalidData
  | noStrikeData
  | insufficientData
  | ok (r : Report)
deriving DecidableEq

/-- The analysis body of `parse_options_data` (source lines 156–301), run on
the two preprocessed frames.  `fetched_price` is the value returned by
`get_current_price` (`none` for its `"N/A"` sentinel) and `nowSec` the
`utcnow()` reading as epoch seconds. -/
def analyze (callP putP : DataFrame) (ticker : String)
    (fetched_price : Option ℚ) (nowSec : Int) : Result :=
  let expiry_date := expiryLabel callP
  let current_price : ℚ :=
    match fetched_price with
    | some p => p
    | none => median (callP.rows.map Row.strikeQ)
  let total_call_volume := colSum callP.rows Row.vol
  let total_put_volume := colSum putP.rows Row.vol
  let pcr := putCallRatio total_call_volume total_put_volume
  if callP.rows = [] ∨ putP.rows = [] ∨
      colMax? callP.rows Row.vol = some 0 ∨ colMax? putP.rows Row.vol = some 0 then
    Result.insufficientData
  else
    let mtc := (argmaxFirst Row.vol callP.rows).getD dummyRow
    let mtp := (argmaxFirst Row.vol putP.rows).getD dummyRow
    let hcc := (argmaxFirst (fun r => |r.chg|) callP.rows).getD dummyRow
    let hcp := (argmaxFirst (fun r => |r.chg|) putP.rows).getD dummyRow
    let atmIvs : ℚ × ℚ :=
      match argminFirst (fun r => |r.strikeQ - current_price|) callP.rows,
            argminFirst (fun r => |r.strikeQ - current_price|) putP.rows with
      | some cr, some pr2 => (cr.ivQ, pr2.ivQ)
      | _, _ => (0, 0)
    let atm_call_iv := atmIvs.1
    let atm_put_iv := atmIvs.2
    let iv_skew := (atm_put_iv - atm_call_iv) * 100
    let bearish : Prop := colMean putP.rows Row.vol > colMean callP.rows Row.vol
    let bullish : Prop := colMean callP.rows Row.vol > colMean putP.rows Row.vol ∧
      pcr.ltp 1 ∧ hcc.chg > hcp.chg
    let mean_iv := (colMean callP.rows Row.ivQ + colMean putP.rows Row.ivQ) / 2 * 100
    let iv_diff := |atm_call_iv - atm_put_iv| * 100
    let high_iv : Prop := mean_iv > 30 ∨ iv_diff > 5
    let sig_pos : Prop := iv_skew > 2
    let sig_neg : Prop := iv_skew < -2
    let dte := days_to_expiry expiry_date nowSec
    let reliability := reliabilityOf callP.rows putP.rows current_price dte
    let reliability_msg :=
      if reliability ≥ 4/5 then
        "거래량과 포지션이 풍부하며, 만기일도 적절합니다. → 매우 신뢰할 수 있습니다."
      else if reliability ≥ 3/5 then
        "보통 수준의 신뢰도입니다. 시장 심리 해석은 가능하지만 다소 주의가 필요합니다."
      else
        "데이터 신뢰도가 낮습니다. 해당 만기일은 참고 수준으로만 해석하세요."
    let strategy :=
      if bullish then
        if ¬ high_iv ∧ sig_neg then
          "🚀 매우 강한 매수 신호: 주식 매수 또는 레버리지 매수 + 저변동성 혜택 가능."
        else if high_iv ∧ sig_neg then
          "📈 조심스러운 매수 신호: 상승 기대는 있으나 변동성 리스크 존재."
        else if ¬ high_iv then
          "🚀 매수 신호: 주식 매수 또는 콜 옵션 매수 유효."
        else
          "📈 조심스러운 매수 신호: 상승 기대는 있으나 확실치 않음."
      else if bearish then
        if ¬ high_iv ∧ sig_pos then
          "⚠️ 매우 강한 매도 신호: 현물 매도 및 숏 포지션 유리 + 변동성 낮음."
        else if high_iv ∧ sig_pos then
          "📉 조심스러운 매도 신호: 하락 대비 심리 강화 + 변동성 주의."
        else if ¬ high_iv then
          "⚠️ 일반 매도 신호: 방향은 약세지만 리스크는 낮음."
        else
          "📉 조심스러운 매도 신호: 하락 대비 심리 강화이나 확실치 않음."
      else
        if pcr.gtp (6/5) ∧ high_iv then
          "🧐 하락 대비 강화 중 (공포 심리 징후)"
        else if pcr.ltp (4/5) ∧ ¬ high_iv then
          "👀 조심스러운 상승 기대감 (거래 약하지만 방향성 존재)"
        else
          "🔍 중립: 시장 방향성이 뚜렷하지 않음."
    let bp := boxPair (get_box_range_weighted putP current_price (3/10))
      (get_box_range_weighted callP current_price (3/10))
    Result.ok
      { ticker := ticker
        expiry_date := expiry_date
        current_price := current_price
        strategy := strategy
        most_traded_call_strike := mtc.strikeQ
        most_traded_call_volume := mtc.vol
        most_traded_call_oi := mtc.oi
        most_traded_put_strike := mtp.strikeQ
        most_traded_put_volume := mtp.vol
        most_traded_put_oi := mtp.oi
        put_call_ratio := pcr
        iv_skew := iv_skew
        mean_iv := mean_iv
        reliability := reliability
        reliability_msg := reliability_msg
        boxMin := bp.1
        boxMax := bp.2 }

/-- `parse_options_data(call_df, put_df, ticker)`.  The result is paired
with the final states of the two (mutable, mutated in place) input frames,
so that the caller-visible frame effect is part of the return value. -/
def parse_options_data (callDf putDf : Option DataFrame) (ticker : String)
    (fetched_price : Option ℚ) (nowSec : Int) :
    Result × Option DataFrame × Option DataFrame :=
  match callDf, putDf with
  | none, _ => (Result.invalidData, callDf, putDf)
  | _, none => (Result.invalidData, callDf, putDf)
  | some c, some p =>
    if c.hasStrike = false ∨ p.hasStrike = false then
      (Result.noStrikeData, some c, some p)
    else
      let c2 := preprocess c
      let p2 := preprocess p
      (analyze c2 p2 ticker fetched_price nowSec, some c2, some p2)

/-- Projection of `parse_options_data` on its returned message/report. -/
def parseResult (callDf putDf : Option DataFrame) (ticker : String)
    (fetched_price : Option ℚ) (nowSec : Int) : Result :=
  (parse_options_data callDf putDf ticker fetched_price nowSec).1

/-- Extracts the report of an `ok` result (only used to state concrete
instances of invariants about produced reports). -/
def reportOf (res : Result) : Report :=
  match res with
  | .ok r => r
  | _ =>
    { ticker := "", expiry_date := "", current_price := 0, strategy := ""
      most_traded_call_strike := 0, most_traded_call_volume := 0
      most_traded_call_oi := 0, most_traded_put_strike := 0
      most_traded_put_volume := 0, most_traded_put_oi := 0
      put_call_ratio := .inf, iv_skew := 0, mean_iv := 0, reliability := 0
      reliability_msg := "", boxMin := none, boxMax := none }

/-! Concrete sample data, used by the witness theorems below. -/

/-- A call contract: strike 100, volume 500, open interest 1000, IV 0.25,
change 1.0, bid 1, ask 2, expiry encoded `240621`. -/
def sampleCallRow : Row :=
  ⟨"ABC240621C00100000", .num 100, .num (3/2), .num 1, .num 2, .num 1,
    .num 500, .num 1000, .num (1/4), .nan⟩

/-- A put contract: strike 100, volume 100, open interest 500, IV 0.30,
change −0.5. -/
def samplePutRow : Row :=
  ⟨"ABC240621P00100000", .num 100, .num 1, .num 1, .num 2, .num (-1/2),
    .num 100, .num 500, .num (3/10), .nan⟩

def sampleCallDf : DataFrame := ⟨true, false, [sampleCallRow]⟩

def samplePutDf : DataFrame := ⟨true, false, [samplePutRow]⟩

/-- Epoch seconds of 2024-05-01 00:00:00 UTC. -/
def sampleNow : Int := 86400 * 19844

/-- A call frame whose single row has volume 0. -/
def zeroVolCallDf : DataFrame :=
  ⟨true, false, [⟨"ABC240621C00100000", .num 100, .num (3/2), .num 1, .num 2,
    .num 1, .num 0, .num 1000, .num (1/4), .nan⟩]⟩

/-- A single row with strike 100, openInterest 0 but volume 10: its weighted
score is 7, yet the band's openInterest sum is 0. -/
def oiZeroRow : Row :=
  ⟨"X", .num 100, .nan, .nan, .nan, .nan, .num 10, .num 0, .nan, .nan⟩

def oiZeroDf : DataFrame := ⟨true, false, [oiZeroRow]⟩

/-! Helper lemmas about the list-level dataframe operations. -/

lemma le_foldl_max (x : ℚ) (xs : List ℚ) : x ≤ xs.foldl max x := by
  induction xs generalizing x with
  | nil => exact le_refl x
  | cons y ys ih => exact le_trans (le_max_left x y) (ih (max x y))

lemma mem_le_foldl_max {y : ℚ} {xs : List ℚ} (x : ℚ) (hy : y ∈ xs) :
    y ≤ xs.foldl max x := by
  induction xs generalizing x with
  | nil => cases hy
  | cons z zs ih =>
    rcases List.mem_cons.mp hy with h | h
    · subst h
      exact le_trans (le_max_right x y) (le_foldl_max _ _)
    · exact ih (max x z) h

lemma foldl_max_mem (x : ℚ) (xs : List ℚ) : xs.foldl max x ∈ x :: xs := by
  induction xs generalizing x with
  | nil => exact List.mem_singleton.mpr rfl
  | cons z zs ih =>
    have h := ih (max x z)
    rcases List.mem_cons.mp h with h1 | h1
    · rcases max_choice x z with h2 | h2 <;> rw [List.foldl_cons, h1, h2]
      · exact List.mem_cons_self _ _
      · exact List.mem_cons_of_mem _ (List.mem_cons_self _ _)
    · exact List.mem_cons_of_mem _ (List.mem_cons_of_mem _ h1)

lemma colSum_nonneg {rs : List Row} {f : Row → ℚ} (h : ∀ r ∈ rs, 0 ≤ f r) :
    0 ≤ colSum rs f := by
  apply List.sum_nonneg
  intro y hy
  obtain ⟨r, hr, rfl⟩ := List.mem_map.mp hy
  exact h r hr

lemma colMax?_eq_some_zero_iff {rs : List Row} {f : Row → ℚ}
    (h : ∀ r ∈ rs, 0 ≤ f r) (hne : rs ≠ []) :
    colMax? rs f = some 0 ↔ ∀ r ∈ rs, f r = 0 := by
  cases hm : rs.map f with
  | nil => exact absurd (List.map_eq_nil_iff.mp hm) hne
  | cons x xs =>
    simp only [colMax?, hm, Option.some.injEq]
    constructor
    · intro hmax r hr
      have hmem : f r ∈ x :: xs := hm ▸ List.mem_map_of_mem f hr
      have hle : f r ≤ xs.foldl max x := by
        rcases List.mem_cons.mp hmem with h1 | h1
        · exact h1 ▸ le_foldl_max x xs
        · exact mem_le_foldl_max x h1
      exact le_antisymm (hmax ▸ hle) (h r hr)
    · intro hall
      have hx : ∀ y ∈ x :: xs, y = 0 := by
        intro y hy
        obtain ⟨r, hr, rfl⟩ := List.mem_map.mp (hm ▸ hy)
        exact hall r hr
      have := foldl_max_mem x xs
      exact hx _ this

lemma vol_cleanRow (r : Row) : (cleanRow r).vol = r.vol := rfl

lemma map_vol_preprocess (df : DataFrame) :
    (preprocess df).rows.map Row.vol = df.rows.map Row.vol := by
  simp only [preprocess, List.map_map]
  exact List.map_congr_left fun r _ => vol_cleanRow r

lemma colMax?_vol_preprocess (df : DataFrame) :
    colMax? (preprocess df).rows Row.vol = colMax? df.rows Row.vol := by
  unfold colMax?
  rw [map_vol_preprocess]

lemma preprocess_rows_eq_nil {df : DataFrame} :
    (preprocess df).rows = [] ↔ df.rows = [] := by
  simp [preprocess]

lemma argmaxFirst_eq_none_iff (f : Row → ℚ) (rs : List Row) :
    argmaxFirst f rs = none ↔ rs = [] := by
  cases rs with
  | nil => simp [argmaxFirst]
  | cons r rs =>
    constructor
    · intro h
      exfalso
      simp only [argmaxFirst] at h
      cases hm : argmaxFirst f rs <;> simp only [hm] at h
      · exact absurd h (by simp)
      · revert h
        split <;> simp
    · intro h
      cases h

lemma argmaxFirst_spec (f : Row → ℚ) :
    ∀ (rs : List Row) (b : Row), argmaxFirst f rs = some b →
      ∃ l₁ l₂, rs = l₁ ++ b :: l₂ ∧ (∀ r ∈ l₁, f r < f b) ∧ (∀ r ∈ l₂, f r ≤ f b) := by
  intro rs
  induction rs with
  | nil => intro b h; cases h
  | cons r rs ih =>
    intro b h
    simp only [argmaxFirst] at h
    cases hm : argmaxFirst f rs with
    | none =>
      simp only [hm] at h
      have hrs : rs = [] := (argmaxFirst_eq_none_iff f rs).mp hm
      obtain rfl : r = b := by cases h; rfl
      exact ⟨[], rs, by simp, by simp, by simp [hrs]⟩
    | some b2 =>
      simp only [hm] at h
      obtain ⟨l₁, l₂, hsplit, h1, h2⟩ := ih b2 hm
      by_cases hgt : f r < f b2
      · rw [if_pos hgt] at h
        obtain rfl : b2 = b := by cases h; rfl
        refine ⟨r :: l₁, l₂, by simp [hsplit], ?_, h2⟩
        intro x hx
        rcases List.mem_cons.mp hx with h3 | h3
        · exact h3 ▸ hgt
        · exact h1 x h3
      · rw [if_neg hgt] at h
        obtain rfl : r = b := by cases h; rfl
        replace hgt : f b2 ≤ f r := not_lt.mp hgt
        refine ⟨[], rs, by simp, by simp, ?_⟩
        intro x hx
        rw [hsplit] at hx
        rcases List.mem_append.mp hx with h3 | h3
        · exact le_trans (le_of_lt (h1 x h3)) hgt
        · rcases List.mem_cons.mp h3 with h4 | h4
          · exact h4 ▸ hgt
          · exact le_trans (h2 x h4) hgt

lemma argmaxFirst_mem {f : Row → ℚ} {rs : List Row} {b : Row}
    (h : argmaxFirst f rs = some b) : b ∈ rs := by
  obtain ⟨l₁, l₂, hsplit, -, -⟩ := argmaxFirst_spec f rs b h
  rw [hsplit]
  exact List.mem_append_right _ (List.mem_cons_self _ _)

lemma argmaxFirst_eq_of_split (f : Row → ℚ) (l₁ : List Row) (b : Row) (l₂ : List Row)
    (h1 : ∀ r ∈ l₁, f r < f b) (h2 : ∀ r ∈ l₂, f r ≤ f b) :
    argmaxFirst f (l₁ ++ b :: l₂) = some b := by
  induction l₁ with
  | nil =>
    simp only [List.nil_append, argmaxFirst]
    cases hm : argmaxFirst f l₂ with
    | none => simp [hm]
    | some b2 =>
      have hb2 : b2 ∈ l₂ := argmaxFirst_mem hm
      simp only [hm]
      rw [if_neg (not_lt.mpr (h2 b2 hb2))]
  | cons r l₁ ih =>
    have ih2 := ih fun x hx => h1 x (List.mem_cons_of_mem r hx)
    simp only [List.cons_append, argmaxFirst, List.append_eq, ih2]
    rw [if_pos (h1 r (List.mem_cons_self r l₁))]

lemma mem_of_mem_bandRows {rs : List Row} {cp limit : ℚ} {r : Row}
    (h : r ∈ bandRows rs cp limit) : r ∈ rs :=
  (List.mem_filter.mp h).1

lemma weightedScore_nonneg {r : Row} (hv : 0 ≤ r.vol) (ho : 0 ≤ r.oi) :
    0 ≤ weightedScore r := by
  unfold weightedScore
  positivity

/-! Claim theorems. -/

/-- C3 (amended): for every provider response, `get_expiry_dates` returns a
sequence sorted in ascending order whose elements are exactly those of the
response (a permutation; duplicates are preserved, not removed). -/
theorem C3_expiry_sorted (options : List String) :
    (get_expiry_dates options).Sorted (· ≤ ·) ∧
      List.Perm (get_expiry_dates options) options := by
  unfold get_expiry_dates
  split_ifs with h
  · subst h
    exact ⟨List.sorted_nil, List.Perm.refl _⟩
  · exact ⟨List.sorted_insertionSort _ _, List.perm_insertionSort _ _⟩

/-- C3 counterexample: a provider response with a duplicated date is returned
with the duplicate intact, so the output is not duplicate-free as claimed. -/
theorem C3_counterexample :
    get_expiry_dates ["2026-01-16", "2026-01-16"] = ["2026-01-16", "2026-01-16"] ∧
    ¬ (get_expiry_dates ["2026-01-16", "2026-01-16"]).Nodup := by
  have h : get_expiry_dates ["2026-01-16", "2026-01-16"] =
      ["2026-01-16", "2026-01-16"] := by
    unfold get_expiry_dates
    rw [if_neg (by simp)]
    simp [List.insertionSort, List.orderedInsert, le_refl]
  refine ⟨h, ?_⟩
  rw [h]
  simp

/-- C4: with non-negative volumes, the put/call ratio is
`total_put_volume / total_call_volume` when the total call volume is
positive, is `+inf` exactly when the total call volume is 0, is non-negative
when finite, and the division only ever happens with a positive divisor. -/
theorem C4_putCallRatio (callRows putRows : List Row)
    (hc : ∀ r ∈ callRows, 0 ≤ r.vol) (hp : ∀ r ∈ putRows, 0 ≤ r.vol) :
    (putCallRatio (colSum callRows Row.vol) (colSum putRows Row.vol) = .inf ↔
      colSum callRows Row.vol = 0) ∧
    (0 < colSum callRows Row.vol →
      putCallRatio (colSum callRows Row.vol) (colSum putRows Row.vol) =
        .finite (colSum putRows Row.vol / colSum callRows Row.vol) ∧
      0 ≤ colSum putRows Row.vol / colSum callRows Row.vol) ∧
    (putCallRatio (colSum callRows Row.vol) (colSum putRows Row.vol) ≠ .inf →
      0 < colSum callRows Row.vol) := by
  have hc0 : 0 ≤ colSum callRows Row.vol := colSum_nonneg hc
  have hp0 : 0 ≤ colSum putRows Row.vol := colSum_nonneg hp
  unfold putCallRatio
  split_ifs with h
  · refine ⟨?_, fun _ => ⟨rfl, div_nonneg hp0 (le_of_lt h)⟩, fun _ => h⟩
    constructor
    · intro heq
      cases heq
    · intro heq
      exact absurd heq (ne_of_gt h)
  · have hz : colSum callRows Row.vol = 0 := le_antisymm (not_lt.mp h) hc0
    refine ⟨iff_of_true rfl hz, fun h0 => absurd h0 h, fun hne => absurd rfl hne⟩

/-- C4 witness: the sample frames have non-negative volumes and the theorem's
conclusion holds on them. -/
theorem C4_witness :
    (∀ r ∈ sampleCallDf.rows, 0 ≤ r.vol) ∧ (∀ r ∈ samplePutDf.rows, 0 ≤ r.vol) ∧
    ((putCallRatio (colSum sampleCallDf.rows Row.vol) (colSum samplePutDf.rows Row.vol) = .inf ↔
      colSum sampleCallDf.rows Row.vol = 0) ∧
    (0 < colSum sampleCallDf.rows Row.vol →
      putCallRatio (colSum sampleCallDf.rows Row.vol) (colSum samplePutDf.rows Row.vol) =
        .finite (colSum samplePutDf.rows Row.vol / colSum sampleCallDf.rows Row.vol) ∧
      0 ≤ colSum samplePutDf.rows Row.vol / colSum sampleCallDf.rows Row.vol) ∧
    (putCallRatio (colSum sampleCallDf.rows Row.vol) (colSum samplePutDf.rows Row.vol) ≠ .inf →
      0 < colSum sampleCallDf.rows Row.vol)) :=
  ⟨by decide, by decide,
    C4_putCallRatio sampleCallDf.rows samplePutDf.rows (by decide) (by decide)⟩

/-- C7: `time_score` is 1.0 on the inclusive band 5 ≤ d ≤ 45, 0.7 outside
that band when d < 90 (in particular at exactly 46), and 0.3 when d ≥ 90. -/
theorem C7_time_score (d : Int) :
    ((5 ≤ d ∧ d ≤ 45) → time_score d = 1) ∧
    ((¬ (5 ≤ d ∧ d ≤ 45) ∧ d < 90) → time_score d = 7/10) ∧
    (90 ≤ d → time_score d = 3/10) := by
  unfold time_score
  refine ⟨fun h => by rw [if_pos h], fun h => by rw [if_neg h.1, if_pos h.2], fun h => ?_⟩
  have h1 : ¬ (5 ≤ d ∧ d ≤ 45) := by omega
  have h2 : ¬ d < 90 := by omega
  rw [if_neg h1, if_neg h2]

/-- C7 witness: the boundary days 45 and 46. -/
theorem C7_witness :
    ((5:Int) ≤ 45 ∧ (45:Int) ≤ 45) ∧ time_score 45 = 1 ∧
    (¬ ((5:Int) ≤ 46 ∧ (46:Int) ≤ 45) ∧ (46:Int) < 90) ∧ time_score 46 = 7/10 :=
  ⟨by decide, (C7_time_score 45).1 (by decide), by decide,
    (C7_time_score 46).2.1 (by decide)⟩

/-- C1 counterexample: a single contract with strike 100, openInterest 0 and
volume 10, at reference price 100 and the ±30% limit used by the call sites:
the band is non-empty and its weighted score is 7 ≠ 0, yet
`get_box_range_weighted` returns `None` (because the band's openInterest sum
is 0), contradicting the claimed "absent exactly when the band is empty or
all weighted scores are zero". -/
theorem C1_counterexample :
    get_box_range_weighted oiZeroDf 100 (3/10) = none ∧
    bandRows oiZeroDf.rows 100 (3/10) = [oiZeroRow] ∧
    weightedScore oiZeroRow = 7 := by
  refine ⟨?_, ?_, ?_⟩
  · norm_num [get_box_range_weighted, bandRows, colSum, Row.oi, Row.strikeQ,
      Cell.toNum, oiZeroDf, oiZeroRow, List.filter_cons, List.filter_nil]
  · norm_num [bandRows, Row.strikeQ, Cell.toNum, oiZeroDf, oiZeroRow,
      List.filter_cons, List.filter_nil]
  · norm_num [weightedScore, Row.oi, Row.vol, Cell.toNum, oiZeroRow]

/-- C1 (amended): with non-negative volume and openInterest, the per-side
box-range result is absent exactly when the ±limit band is empty, or the
band's total openInterest is 0, or every row in the band has weighted score
`0.3*openInterest + 0.7*volume` equal to zero; and whenever the band splits
as `l₁ ++ b :: l₂` with `b` strictly above every earlier row's score and at
least every later row's score (i.e. `b` is the first maximal row), the band
openInterest sum is non-zero and `b`'s score is non-zero, the result is
`b`'s strike. -/
theorem C1_boxRange (df : DataFrame) (cp limit : ℚ)
    (l₁ : List Row) (b : Row) (l₂ : List Row)
    (hv : ∀ r ∈ df.rows, 0 ≤ r.vol) (ho : ∀ r ∈ df.rows, 0 ≤ r.oi) :
    (get_box_range_weighted df cp limit = none ↔
      bandRows df.rows cp limit = [] ∨
      colSum (bandRows df.rows cp limit) Row.oi = 0 ∨
      ∀ r ∈ bandRows df.rows cp limit, weightedScore r = 0) ∧
    (bandRows df.rows cp limit = l₁ ++ b :: l₂ →
      (∀ r ∈ l₁, weightedScore r < weightedScore b) →
      (∀ r ∈ l₂, weightedScore r ≤ weightedScore b) →
      colSum (bandRows df.rows cp limit) Row.oi ≠ 0 →
      weightedScore b ≠ 0 →
      get_box_range_weighted df cp limit = some b.strikeQ) := by
  have hscore : ∀ r ∈ bandRows df.rows cp limit, 0 ≤ weightedScore r := fun r hr =>
    weightedScore_nonneg (hv r (mem_of_mem_bandRows hr)) (ho r (mem_of_mem_bandRows hr))
  constructor
  · simp only [get_box_range_weighted]
    split_ifs with h0 h1 h2
    · have hb : bandRows df.rows cp limit = [] := by rw [h0]; rfl
      exact iff_of_true rfl (Or.inl hb)
    · rcases h1 with h1 | h1
      · exact iff_of_true rfl (Or.inl h1)
      · exact iff_of_true rfl (Or.inr (Or.inl h1))
    · have hne : bandRows df.rows cp limit ≠ [] := fun hc => h1 (Or.inl hc)
      exact iff_of_true rfl
        (Or.inr (Or.inr ((colMax?_eq_some_zero_iff hscore hne).mp h2)))
    · have hne : bandRows df.rows cp limit ≠ [] := fun hc => h1 (Or.inl hc)
      have hoi : colSum (bandRows df.rows cp limit) Row.oi ≠ 0 :=
        fun hc => h1 (Or.inr hc)
      refine iff_of_false ?_ ?_
      · cases hm : argmaxFirst weightedScore (bandRows df.rows cp limit) with
        | none => exact absurd ((argmaxFirst_eq_none_iff _ _).mp hm) hne
        | some b2 => simp [hm]
      · rintro (hc | hc | hc)
        · exact hne hc
        · exact hoi hc
        · exact h2 ((colMax?_eq_some_zero_iff hscore hne).mpr hc)
  · intro hsplit h1 h2 hoi hb
    have hbandne : bandRows df.rows cp limit ≠ [] := by
      rw [hsplit]
      simp
    have hrowsne : df.rows ≠ [] := by
      intro h0
      apply hbandne
      rw [h0]
      rfl
    simp only [get_box_range_weighted]
    rw [if_neg hrowsne, if_neg (not_or.mpr ⟨hbandne, hoi⟩)]
    have hmax : colMax? (bandRows df.rows cp limit) weightedScore ≠ some 0 := by
      intro hc
      refine hb ((colMax?_eq_some_zero_iff hscore hbandne).mp hc b ?_)
      rw [hsplit]
      exact List.mem_append_right _ (List.mem_cons_self _ _)
    rw [if_neg hmax, hsplit, argmaxFirst_eq_of_split weightedScore l₁ b l₂ h1 h2]
    rfl

/-- C1 witness: the sample put frame at reference price 100 has a one-row
band whose score is non-zero and openInterest sum is non-zero, and the
box-range result is that row's strike. -/
theorem C1_witness :
    (∀ r ∈ samplePutDf.rows, 0 ≤ r.vol) ∧ (∀ r ∈ samplePutDf.rows, 0 ≤ r.oi) ∧
    bandRows samplePutDf.rows 100 (3/10) = [] ++ samplePutRow :: [] ∧
    colSum (bandRows samplePutDf.rows 100 (3/10)) Row.oi ≠ 0 ∧
    weightedScore samplePutRow ≠ 0 ∧
    get_box_range_weighted samplePutDf 100 (3/10) = some samplePutRow.strikeQ := by
  have hsplit : bandRows samplePutDf.rows 100 (3/10) = [] ++ samplePutRow :: [] := by
    norm_num [bandRows, Row.strikeQ, Cell.toNum, samplePutDf, samplePutRow,
      List.filter_cons, List.filter_nil]
  have hoi : colSum (bandRows samplePutDf.rows 100 (3/10)) Row.oi ≠ 0 := by
    rw [hsplit]
    norm_num [colSum, Row.oi, Cell.toNum, samplePutRow]
  have hb : weightedScore samplePutRow ≠ 0 := by
    norm_num [weightedScore, Row.oi, Row.vol, Cell.toNum, samplePutRow]
  exact ⟨by decide, by decide, hsplit, hoi, hb,
    (C1_boxRange samplePutDf 100 (3/10) [] samplePutRow [] (by decide) (by decide)).2
      hsplit (by simp) (by simp) hoi hb⟩

/-- C6: when both frames have a strike column and the (coerced) volume
column's maximum on either side equals 0 — in particular an all-zero-volume
call set, regardless of the put side — `parse_options_data` returns the
insufficient-data message, not a report. -/
theorem C6_insufficient (call put : DataFrame) (ticker : String)
    (pr : Option ℚ) (now : Int)
    (hcs : call.hasStrike = true) (hps : put.hasStrike = true)
    (h : colMax? call.rows Row.vol = some 0 ∨ colMax? put.rows Row.vol = some 0) :
    parseResult (some call) (some put) ticker pr now = Result.insufficientData := by
  have h2 : (preprocess call).rows = [] ∨ (preprocess put).rows = [] ∨
      colMax? (preprocess call).rows Row.vol = some 0 ∨
      colMax? (preprocess put).rows Row.vol = some 0 := by
    rcases h with h | h
    · exact Or.inr (Or.inr (Or.inl ((colMax?_vol_preprocess call).trans h)))
    · exact Or.inr (Or.inr (Or.inr ((colMax?_vol_preprocess put).trans h)))
  simp only [parseResult, parse_options_data]
  rw [if_neg (by simp [hcs, hps])]
  show analyze (preprocess call) (preprocess put) ticker pr now = _
  simp only [analyze]
  rw [if_pos h2]

/-- C6 witness: the all-zero-volume call frame with the sample put frame. -/
theorem C6_witness :
    zeroVolCallDf.hasStrike = true ∧ samplePutDf.hasStrike = true ∧
    colMax? zeroVolCallDf.rows Row.vol = some 0 ∧
    parseResult (some zeroVolCallDf) (some samplePutDf) "ABC" (some 100) sampleNow =
      Result.insufficientData :=
  ⟨rfl, rfl, by decide,
    C6_insufficient zeroVolCallDf samplePutDf "ABC" (some 100) sampleNow rfl rfl
      (Or.inl (by decide))⟩

/-- A call frame without a `strike` column. -/
def noStrikeCallDf : DataFrame := ⟨false, false, [sampleCallRow]⟩

/-- C10 counterexample: when the `strike` column is missing the calculator
returns an error message *without* having mutated either input frame (no
coercion, no "Bid-Ask Spread" column), so the claimed "mutates before any
validation / modified even when an error message is returned" is false:
the None-check and the strike-column validation run before the mutation. -/
theorem C10_counterexample :
    parse_options_data (some noStrikeCallDf) (some samplePutDf) "ABC"
        (some 100) sampleNow =
      (Result.noStrikeData, some noStrikeCallDf, some samplePutDf) ∧
    noStrikeCallDf.hasSpread = false ∧ samplePutDf.hasSpread = false := by
  refine ⟨?_, rfl, rfl⟩
  simp [parse_options_data, noStrikeCallDf]

/-- C10 (amended): once both frames pass the None-check and the
strike-column check, `parse_options_data` replaces the caller's frames by
their preprocessed versions — every numeric column coerced (missing and
non-numeric cells become 0), the symbol column string-coerced, and the
"Bid-Ask Spread" column added — before the volume validation, so the
caller's tables are modified even when the insufficient-data error is
returned; they are unchanged on the earlier two error paths. -/
theorem C10_mutation (call put : DataFrame) (ticker : String)
    (pr : Option ℚ) (now : Int)
    (hcs : call.hasStrike = true) (hps : put.hasStrike = true) :
    (parse_options_data (some call) (some put) ticker pr now).2.1 =
      some (preprocess call) ∧
    (parse_options_data (some call) (some put) ticker pr now).2.2 =
      some (preprocess put) ∧
    (preprocess call).hasSpread = true ∧
    (preprocess call).rows = call.rows.map cleanRow := by
  simp only [parse_options_data]
  rw [if_neg (by simp [hcs, hps])]
  exact ⟨rfl, rfl, rfl, rfl⟩

lemma roundHalfEven_nonneg {y : ℚ} (hy : 0 ≤ y) : 0 ≤ roundHalfEven y := by
  have hf : 0 ≤ ⌊y⌋ := Int.floor_nonneg.mpr hy
  simp only [roundHalfEven]
  split_ifs <;> omega

lemma roundHalfEven_le_hundred {y : ℚ} (hy : y ≤ 100) : roundHalfEven y ≤ 100 := by
  have hf : ⌊y⌋ ≤ 100 := by
    have h100 : ⌊(100 : ℚ)⌋ = 100 := by norm_num
    exact h100 ▸ Int.floor_le_floor hy
  have hfr : (⌊y⌋ : ℚ) ≤ y := Int.floor_le y
  simp only [roundHalfEven]
  split_ifs with h1 h2 h3
  · exact hf
  · have hne : ⌊y⌋ ≠ 100 := by
      intro he
      rw [he] at h2
      push_cast at h2
      linarith
    omega
  · exact hf
  · have hne : ⌊y⌋ ≠ 100 := by
      intro he
      push_neg at h1
      rw [he] at h1
      push_cast at h1
      linarith
    omega

lemma round2_bounds {x : ℚ} (h0 : 0 ≤ x) (h1 : x ≤ 1) :
    0 ≤ round2 x ∧ round2 x ≤ 1 := by
  unfold round2
  constructor
  · have h := roundHalfEven_nonneg (by linarith : (0:ℚ) ≤ 100 * x)
    have : (0:ℚ) ≤ (roundHalfEven (100 * x) : ℚ) := by exact_mod_cast h
    positivity
  · have h := roundHalfEven_le_hundred (by linarith : 100 * x ≤ 100)
    rw [div_le_one (by norm_num)]
    exact_mod_cast h

lemma time_score_bounds (d : Int) : 0 ≤ time_score d ∧ time_score d ≤ 1 := by
  unfold time_score
  split_ifs <;> norm_num

/-- C5: for non-negative volumes and open interest, the reliability index —
the 2-decimal rounding of `0.3*volume_score + 0.3*oi_score + 0.2*atm_score
+ 0.2*time_score`, each sub-score lying in [0,1] and the weights summing
to 1 — lies in [0, 1], for every reference price and days-to-expiry. -/
theorem C5_reliability (callRows putRows : List Row) (cp : ℚ) (dte : Int)
    (hcall : ∀ r ∈ callRows, 0 ≤ r.vol ∧ 0 ≤ r.oi)
    (hput : ∀ r ∈ putRows, 0 ≤ r.vol ∧ 0 ≤ r.oi) :
    0 ≤ reliabilityOf callRows putRows cp dte ∧
      reliabilityOf callRows putRows cp dte ≤ 1 := by
  have hcv : 0 ≤ colSum callRows Row.vol := colSum_nonneg fun r hr => (hcall r hr).1
  have hpv : 0 ≤ colSum putRows Row.vol := colSum_nonneg fun r hr => (hput r hr).1
  have hco : 0 ≤ colSum callRows Row.oi := colSum_nonneg fun r hr => (hcall r hr).2
  have hpo : 0 ≤ colSum putRows Row.oi := colSum_nonneg fun r hr => (hput r hr).2
  have hca : 0 ≤ colSum (atmBand callRows cp) Row.vol :=
    colSum_nonneg fun r hr => (hcall r (List.mem_filter.mp hr).1).1
  have hpa : 0 ≤ colSum (atmBand putRows cp) Row.vol :=
    colSum_nonneg fun r hr => (hput r (List.mem_filter.mp hr).1).1
  have hvs : 0 ≤ volume_score (colSum callRows Row.vol + colSum putRows Row.vol) ∧
      volume_score (colSum callRows Row.vol + colSum putRows Row.vol) ≤ 1 := by
    unfold volume_score
    exact ⟨le_min (by positivity) zero_le_one, min_le_right _ _⟩
  have hos : 0 ≤ oi_score (colSum callRows Row.oi + colSum putRows Row.oi) ∧
      oi_score (colSum callRows Row.oi + colSum putRows Row.oi) ≤ 1 := by
    unfold oi_score
    exact ⟨le_min (by positivity) zero_le_one, min_le_right _ _⟩
  have has : 0 ≤ atm_score
        (colSum (atmBand callRows cp) Row.vol + colSum (atmBand putRows cp) Row.vol)
        (colSum callRows Row.vol + colSum putRows Row.vol) ∧
      atm_score
        (colSum (atmBand callRows cp) Row.vol + colSum (atmBand putRows cp) Row.vol)
        (colSum callRows Row.vol + colSum putRows Row.vol) ≤ 1 := by
    unfold atm_score
    have hden : (0:ℚ) < colSum callRows Row.vol + colSum putRows Row.vol + 1/1000000 := by
      have : (0:ℚ) < 1/1000000 := by norm_num
      linarith
    refine ⟨le_min ?_ zero_le_one, min_le_right _ _⟩
    have hnum : (0:ℚ) ≤ colSum (atmBand callRows cp) Row.vol +
        colSum (atmBand putRows cp) Row.vol := by linarith
    positivity
  have hts := time_score_bounds dte
  simp only [reliabilityOf, reliability_index]
  apply round2_bounds
  · nlinarith [hvs.1, hos.1, has.1, hts.1]
  · nlinarith [hvs.2, hos.2, has.2, hts.2]

/-- C5 witness: the sample frames (non-negative volumes and open interest)
at reference price 100 and 51 days to expiry. -/
theorem C5_witness :
    (∀ r ∈ sampleCallDf.rows, 0 ≤ r.vol ∧ 0 ≤ r.oi) ∧
    (∀ r ∈ samplePutDf.rows, 0 ≤ r.vol ∧ 0 ≤ r.oi) ∧
    (0 ≤ reliabilityOf sampleCallDf.rows samplePutDf.rows 100 51 ∧
      reliabilityOf sampleCallDf.rows samplePutDf.rows 100 51 ≤ 1) :=
  ⟨by decide, by decide,
    C5_reliability sampleCallDf.rows samplePutDf.rows 100 51 (by decide) (by decide)⟩

/-- C10 witness: the sample frames (which pass the strike check, and whose
run in fact ends in a full report) come back preprocessed. -/
theorem C10_witness :
    sampleCallDf.hasStrike = true ∧ samplePutDf.hasStrike = true ∧
    ((parse_options_data (some sampleCallDf) (some samplePutDf) "ABC"
        (some 100) sampleNow).2.1 = some (preprocess sampleCallDf) ∧
    (parse_options_data (some sampleCallDf) (some samplePutDf) "ABC"
        (some 100) sampleNow).2.2 = some (preprocess samplePutDf) ∧
    (preprocess sampleCallDf).hasSpread = true ∧
    (preprocess sampleCallDf).rows = sampleCallDf.rows.map cleanRow) :=
  ⟨rfl, rfl,
    C10_mutation sampleCallDf samplePutDf "ABC" (some 100) sampleNow rfl rfl⟩

/-- A six-digit run starts at position `i` of the character list. -/
def sixDigitsAt (cs : List Char) (i : Nat) : Prop :=
  ((cs.drop i).take 6).length = 6 ∧ ∀ x ∈ (cs.drop i).take 6, x.isDigit = true

instance (cs : List Char) (i : Nat) : Decidable (sixDigitsAt cs i) :=
  inferInstanceAs (Decidable (_ ∧ _))

lemma sixDigitsAt_succ (c : Char) (rest : List Char) (j : Nat) :
    sixDigitsAt (c :: rest) (j + 1) ↔ sixDigitsAt rest j := by
  simp [sixDigitsAt]

lemma sixDigitsAt_zero (c : Char) (rest : List Char) :
    sixDigitsAt (c :: rest) 0 ↔
      (((c :: rest).take 6).length = 6 ∧ ∀ x ∈ (c :: rest).take 6, x.isDigit = true) := by
  simp [sixDigitsAt]

lemma not_sixDigitsAt_of_ge {cs : List Char} {j : Nat} (h : cs.length ≤ j) :
    ¬ sixDigitsAt cs j := by
  intro hC
  have h1 := hC.1
  rw [List.drop_eq_nil_of_le h] at h1
  simp at h1

lemma findSixDigits_eq_none_iff (cs : List Char) :
    findSixDigits cs = none ↔ ∀ i, ¬ sixDigitsAt cs i := by
  induction cs with
  | nil =>
    constructor
    · intro _ i hC
      exact not_sixDigitsAt_of_ge (by simp) hC
    · intro _
      rfl
  | cons c rest ih =>
    simp only [findSixDigits]
    split_ifs with h
    · refine iff_of_false (by simp) ?_
      push_neg
      exact ⟨0, (sixDigitsAt_zero c rest).mpr h⟩
    · rw [ih]
      constructor
      · intro hall i hC
        cases i with
        | zero => exact h ((sixDigitsAt_zero c rest).mp hC)
        | succ j => exact hall j ((sixDigitsAt_succ c rest j).mp hC)
      · intro hall j hC
        exact hall (j + 1) ((sixDigitsAt_succ c rest j).mpr hC)

lemma findSixDigits_eq_of_at (cs : List Char) (i : Nat)
    (h : sixDigitsAt cs i) (hmin : ∀ j < i, ¬ sixDigitsAt cs j) :
    findSixDigits cs = some ((cs.drop i).take 6) := by
  induction cs generalizing i with
  | nil => exact absurd h (not_sixDigitsAt_of_ge (by simp))
  | cons c rest ih =>
    cases i with
    | zero =>
      simp only [findSixDigits]
      rw [if_pos ((sixDigitsAt_zero c rest).mp h)]
      rw [List.drop_zero]
    | succ j =>
      simp only [findSixDigits]
      rw [if_neg fun hC => hmin 0 (by omega) ((sixDigitsAt_zero c rest).mpr hC)]
      rw [List.drop_succ_cons]
      exact ih j ((sixDigitsAt_succ c rest j).mp h)
        fun k hk hC => hmin (k + 1) (by omega) ((sixDigitsAt_succ c rest k).mpr hC)

/-- A frame with no rows (used to witness the `IndexError → "N/A"` path). -/
def emptyRowsDf : DataFrame := ⟨true, false, []⟩

/-- C9: the expiry label is `extract_expiry_date` of the first call row's
contract symbol, or `"N/A"` when there is no first row; `extract_expiry_date`
returns `"N/A"` exactly when the symbol has no run of six consecutive digits,
and otherwise formats the leftmost such run `YYMMDD` as `20YY-MM-DD`
without validating it as a calendar date — e.g. the six digits `999999`
yield the non-date label `"2099-99-99"`. -/
theorem C9_expiry_label (df : DataFrame) (s : String) (i : Nat) :
    (df.rows = [] → expiryLabel df = "N/A") ∧
    (df.rows ≠ [] →
      expiryLabel df = extract_expiry_date (df.rows.headD dummyRow).contractSymbol) ∧
    ((∀ j < s.toList.length, ¬ sixDigitsAt s.toList j) →
      extract_expiry_date s = "N/A") ∧
    (sixDigitsAt s.toList i → (∀ j < i, ¬ sixDigitsAt s.toList j) →
      extract_expiry_date s = fmtSix ((s.toList.drop i).take 6)) ∧
    extract_expiry_date "AAPL999999C00100000" = "2099-99-99" := by
  refine ⟨?_, ?_, ?_, ?_, by decide⟩
  · intro h
    simp [expiryLabel, h]
  · intro h
    cases hr : df.rows with
    | nil => exact absurd hr h
    | cons r rest => simp [expiryLabel, hr]
  · intro hall
    have hall2 : ∀ j, ¬ sixDigitsAt s.toList j := by
      intro j
      by_cases hj : j < s.toList.length
      · exact hall j hj
      · exact not_sixDigitsAt_of_ge (by omega)
    unfold extract_expiry_date
    rw [(findSixDigits_eq_none_iff s.toList).mpr hall2]
  · intro h hmin
    unfold extract_expiry_date
    rw [findSixDigits_eq_of_at s.toList i h hmin]

/-- C9 witness: the empty frame labels `"N/A"`; in `"XY123456Z"` the first
six-digit run starts at index 2 and formats (unvalidated) as `"2012-34-56"`. -/
theorem C9_witness :
    emptyRowsDf.rows = [] ∧ expiryLabel emptyRowsDf = "N/A" ∧
    sixDigitsAt "XY123456Z".toList 2 ∧ (∀ j < 2, ¬ sixDigitsAt "XY123456Z".toList j) ∧
    extract_expiry_date "XY123456Z" = fmtSix (("XY123456Z".toList.drop 2).take 6) ∧
    fmtSix (("XY123456Z".toList.drop 2).take 6) = "2012-34-56" :=
  ⟨rfl, (C9_expiry_label emptyRowsDf "XY123456Z" 2).1 rfl, by decide, by decide,
    (C9_expiry_label emptyRowsDf "XY123456Z" 2).2.2.2.1 (by decide) (by decide),
    by decide⟩

lemma boxPair_none_iff (pb cb : Option ℚ) :
    ((boxPair pb cb).1 = none ↔ (boxPair pb cb).2 = none) := by
  unfold boxPair
  split_ifs with h
  · cases pb with
    | none => exact absurd h.1 (by simp [truthy])
    | some x =>
      cases cb with
      | none => exact absurd h.2 (by simp [truthy])
      | some y => simp
  · simp

/-- C8: every produced report carries the box-range bounds jointly — the
put-side lower bound and the call-side upper bound are both present or both
absent, never only one of them. -/
theorem C8_box_invariant (call put : DataFrame) (ticker : String)
    (pr : Option ℚ) (now : Int) (r : Report)
    (h : parseResult (some call) (some put) ticker pr now = Result.ok r) :
    (r.boxMin = none ↔ r.boxMax = none) := by
  simp only [parseResult, parse_options_data] at h
  by_cases hs : call.hasStrike = false ∨ put.hasStrike = false
  · rw [if_pos hs] at h
    exact absurd h (by simp)
  · rw [if_neg hs] at h
    replace h : analyze (preprocess call) (preprocess put) ticker pr now =
      Result.ok r := h
    unfold analyze at h
    by_cases hins : (preprocess call).rows = [] ∨ (preprocess put).rows = [] ∨
        colMax? (preprocess call).rows Row.vol = some 0 ∨
        colMax? (preprocess put).rows Row.vol = some 0
    · rw [if_pos hins] at h
      exact absurd h (by simp)
    · rw [if_neg hins] at h
      injection h with h2
      subst h2
      exact boxPair_none_iff _ _

/-- C8 witness: the sample frames produce a full report, whose two box
bounds satisfy the both-or-neither invariant. -/
theorem C8_witness :
    parseResult (some sampleCallDf) (some samplePutDf) "ABC" (some 100) sampleNow =
      Result.ok (reportOf (parseResult (some sampleCallDf) (some samplePutDf) "ABC"
        (some 100) sampleNow)) ∧
    ((reportOf (parseResult (some sampleCallDf) (some samplePutDf) "ABC"
        (some 100) sampleNow)).boxMin = none ↔
      (reportOf (parseResult (some sampleCallDf) (some samplePutDf) "ABC"
        (some 100) sampleNow)).boxMax = none) := by
  have h : parseResult (some sampleCallDf) (some samplePutDf) "ABC" (some 100) sampleNow =
      Result.ok (reportOf (parseResult (some sampleCallDf) (some samplePutDf) "ABC"
        (some 100) sampleNow)) := by
    simp only [parseResult, parse_options_data]
    rw [if_neg (by decide)]
    simp only [analyze]
    rw [if_neg (by decide)]
    simp only [reportOf]
  exact ⟨h, C8_box_invariant sampleCallDf samplePutDf "ABC" (some 100) sampleNow _ h⟩

/-- The reliability field of the report computed on the sample frames, as a
function of the clock reading only. -/
lemma parseReliability_eq (n : Int) :
    (reportOf (parseResult (some sampleCallDf) (some samplePutDf) "ABC"
        (some 100) n)).reliability =
      reliabilityOf (preprocess sampleCallDf).rows (preprocess samplePutDf).rows 100
        (days_to_expiry (expiryLabel (preprocess sampleCallDf)) n) := by
  simp only [parseResult, parse_options_data]
  rw [if_neg (by decide)]
  simp only [analyze]
  rw [if_neg (by decide)]
  simp only [reportOf]

lemma reliabilityOf_sample_51 :
    reliabilityOf (preprocess sampleCallDf).rows (preprocess samplePutDf).rows 100 51 =
      round2 (6881/20000) := by
  norm_num [reliabilityOf, reliability_index, preprocess, cleanRow, sampleCallDf,
    samplePutDf, sampleCallRow, samplePutRow, colSum, Row.vol, Row.oi, Row.strikeQ,
    Cell.toNum, atmBand, List.filter_cons, List.filter_nil, volume_score, oi_score,
    atm_score, time_score, min_def]

lemma reliabilityOf_sample_132 :
    reliabilityOf (preprocess sampleCallDf).rows (preprocess samplePutDf).rows 100 132 =
      round2 (5281/20000) := by
  norm_num [reliabilityOf, reliability_index, preprocess, cleanRow, sampleCallDf,
    samplePutDf, sampleCallRow, samplePutRow, colSum, Row.vol, Row.oi, Row.strikeQ,
    Cell.toNum, atmBand, List.filter_cons, List.filter_nil, volume_score, oi_score,
    atm_score, time_score, min_def]

lemma round2_sample_51 : round2 (6881/20000) = 17/50 := by
  have hf : ⌊(100 * (6881/20000 : ℚ))⌋ = 34 := by
    rw [Int.floor_eq_iff]
    constructor <;> norm_num
  simp only [round2, roundHalfEven, hf]
  norm_num

lemma round2_sample_132 : round2 (5281/20000) = 13/50 := by
  have hf : ⌊(100 * (5281/20000 : ℚ))⌋ = 26 := by
    rw [Int.floor_eq_iff]
    constructor <;> norm_num
  simp only [round2, roundHalfEven, hf]
  norm_num

/-- C2 counterexample: two runs of the calculator with identical call rows,
put rows, ticker and fetched current price, differing only in the hidden
`utcnow()` clock reading (2024-05-01 versus 81 days earlier), produce
different outputs — the reliability index is 0.34 in one and 0.26 in the
other — so the calculator is not a pure function of the claimed inputs. -/
theorem C2_counterexample :
    parseResult (some sampleCallDf) (some samplePutDf) "ABC" (some 100) sampleNow ≠
      parseResult (some sampleCallDf) (some samplePutDf) "ABC" (some 100)
        (sampleNow - 86400 * 81) := by
  intro heq
  have h1 : (reportOf (parseResult (some sampleCallDf) (some samplePutDf) "ABC"
      (some 100) sampleNow)).reliability = 17/50 := by
    rw [parseReliability_eq]
    rw [show days_to_expiry (expiryLabel (preprocess sampleCallDf)) sampleNow = 51
      from by decide]
    rw [reliabilityOf_sample_51, round2_sample_51]
  have h2 : (reportOf (parseResult (some sampleCallDf) (some samplePutDf) "ABC"
      (some 100) (sampleNow - 86400 * 81))).reliability = 13/50 := by
    rw [parseReliability_eq]
    rw [show days_to_expiry (expiryLabel (preprocess sampleCallDf))
        (sampleNow - 86400 * 81) = 132 from by decide]
    rw [reliabilityOf_sample_132, round2_sample_132]
  rw [heq, h2] at h1
  norm_num at h1

/-- C2 (amended): the calculator is a deterministic function of its explicit
inputs together with its two hidden inputs: outputs depend on the clock
reading only through the derived days-to-expiry, so two invocations with
identical frames, ticker and fetched price whose clock readings yield the
same days-to-expiry produce identical results and frame states. -/
theorem C2_determinism (call put : DataFrame) (ticker : String)
    (pr : Option ℚ) (n1 n2 : Int)
    (h : days_to_expiry (expiryLabel (preprocess call)) n1 =
      days_to_expiry (expiryLabel (preprocess call)) n2) :
    parse_options_data (some call) (some put) ticker pr n1 =
      parse_options_data (some call) (some put) ticker pr n2 := by
  simp only [parse_options_data]
  split_ifs with hs
  · rfl
  · simp only [analyze]
    rw [h]

/-- C2 witness: two distinct clock readings 100 seconds apart within the
same day bucket give identical outputs. -/
theorem C2_witness :
    days_to_expiry (expiryLabel (preprocess sampleCallDf)) sampleNow =
      days_to_expiry (expiryLabel (preprocess sampleCallDf)) (sampleNow - 100) ∧
    parse_options_data (some sampleCallDf) (some samplePutDf) "ABC" (some 100) sampleNow =
      parse_options_data (some sampleCallDf) (some samplePutDf) "ABC" (some 100)
        (sampleNow - 100) :=
  ⟨by decide,
    C2_determinism sampleCallDf samplePutDf "ABC" (some 100) sampleNow (sampleNow - 100)
      (by decide)⟩

end StockStat
